import Mathlib

/-!
Verification of the VirtIO split virtual queue engine (package `virtio`,
file `kvm/virtio/queue.go`) and the MSI-X capability helper
(`soc/intel/pci/msix.go`) of the tamago repository.

The Go code is shallowly embedded: machine integers (`uint16`, `uint32`,
`uint64`) become `Nat` with explicit `% 2^w` reductions where the Go code
wraps; byte slices become `List Nat`; Go's `copy` builtin becomes `goCopy`;
functions that can hit a Go runtime panic (slice out of range) return
`Option`.  The DMA allocator is external to the code under verification and
is represented by its contract: `dma.Reserve` yields a base physical address
and a zeroed byte view, `dma.Reserved` yields a bound flag and an address.
-/

namespace Tamago

/-- Go `copy(dst, src)`: overwrites the first `min |dst| |src|` bytes of
`dst` with those of `src`, keeps the rest of `dst`, never grows `dst`. -/
def goCopy (dst src : List Nat) : List Nat :=
  src.take dst.length ++ dst.drop src.length

/-- Little-endian encoding of a 16-bit value, as produced by
`binary.Write(buf, binary.LittleEndian, v)` on a `uint16`. -/
def put16 (v : Nat) : List Nat :=
  [v % 256, v / 256 % 256]

/-- Little-endian encoding of a 32-bit value (`uint32`). -/
def put32 (v : Nat) : List Nat :=
  [v % 256, v / 256 % 256, v / 65536 % 256, v / 16777216 % 256]

/-- Little-endian encoding of a 64-bit value (`uint64`). -/
def put64 (v : Nat) : List Nat :=
  [v % 256, v / 256 % 256, v / 65536 % 256, v / 16777216 % 256,
   v / 4294967296 % 256, v / 1099511627776 % 256,
   v / 281474976710656 % 256, v / 72057594037927936 % 256]

/-- Little-endian 16-bit read at byte offset `off` (out-of-range bytes read
as 0, used only in-range). -/
def read16 (l : List Nat) (off : Nat) : Nat :=
  l.getD off 0 + 256 * l.getD (off + 1) 0

/-- Little-endian 32-bit read at byte offset `off`. -/
def read32 (l : List Nat) (off : Nat) : Nat :=
  read16 l off + 65536 * read16 l (off + 2)

/-- Little-endian 64-bit read at byte offset `off`. -/
def read64 (l : List Nat) (off : Nat) : Nat :=
  read32 l off + 4294967296 * read32 l (off + 4)

/-- VirtIO descriptor flag `Write` (queue.go constant block). -/
def WriteFlag : Nat := 2

/-- `Descriptor` of queue.go: physical address (`uint64`), length
(`uint32`), flags (`uint16`), next index (`uint16`), plus the addressed DMA
buffer `buf`. -/
structure Descriptor where
  Address : Nat
  length  : Nat
  Flags   : Nat
  Next    : Nat
  buf     : List Nat
deriving Repr, DecidableEq, Inhabited

namespace Descriptor

/-- `Descriptor.Bytes`: serializes address, length, flags and next index in
little-endian order, 16 bytes total. -/
def Bytes (d : Descriptor) : List Nat :=
  put64 d.Address ++ put32 d.length ++ put16 d.Flags ++ put16 d.Next

/-- `Descriptor.Init(buf, flags)`: the external `dma.Reserved(buf)` call is
represented by its results `res` (buffer bound through the DMA allocator?)
and `addr` (its physical address).  With `res = false` the Go function
returns at once, no field is assigned and no error value exists in its
signature (`func (d *Descriptor) Init(buf []byte, flags uint16)`), so the
embedding returns the receiver unchanged. -/
def Init (d : Descriptor) (res : Bool) (addr : Nat) (buf : List Nat)
    (flags : Nat) : Descriptor :=
  if res then
    { Address := addr, length := buf.length % 4294967296, Flags := flags,
      Next := d.Next, buf := buf }
  else
    d

/-- `Descriptor.Read(b)` for `b = make([]byte, n)`: copies the descriptor
buffer into a fresh zeroed slice of length `n`. -/
def Read (d : Descriptor) (n : Nat) : List Nat :=
  goCopy (List.replicate n 0) d.buf

/-- `Descriptor.Write(b)`: records `len(b)` as the new length and copies `b`
into the descriptor's DMA buffer. -/
def Write (d : Descriptor) (b : List Nat) : Descriptor :=
  { d with length := b.length % 4294967296, buf := goCopy d.buf b }

end Descriptor

/-- Reference decoder for the 16-byte descriptor wire layout, written from
the spec's words (address u64 LE at 0, length u32 LE at 8, flags u16 LE at
12, next u16 LE at 14); compared against `Descriptor.Bytes`. -/
def decodeDescriptor (l : List Nat) : Nat × Nat × Nat × Nat :=
  (read64 l 0, read32 l 8, read16 l 12, read16 l 14)

/-- State of a `VirtualQueue` (queue.go) together with its `Available` and
`Used` sub-structures.  The Go accessors (`Available.SetIndex`,
`Available.Ring`, `Available.SetRingIndex`, `Used.Index`, `Used.Ring`) keep
the in-process cache and the DMA byte image of each field in sync — every
read goes through the bytes and every write updates both — so each field is
embedded once; the byte image itself is produced by `VirtualQueue.Bytes`.
`usedIndex` and `usedRing` are written by the external device and only read
by this code. -/
structure VirtualQueue where
  size : Nat
  Descriptors : List Descriptor
  availFlags : Nat
  availIndex : Nat
  availRing : List Nat
  availEventIndex : Nat
  usedFlags : Nat
  usedIndex : Nat
  usedRing : List (Nat × Nat)
  usedAvailEvent : Nat
  usedLast : Nat
deriving Repr, DecidableEq, Inhabited

namespace VirtualQueue

/-- `Available.Bytes`: flags, index, N ring entries, event index, all u16
little-endian. -/
def availBytes (q : VirtualQueue) : List Nat :=
  put16 q.availFlags ++ put16 q.availIndex ++
    (q.availRing.map put16).flatten ++ put16 q.availEventIndex

/-- `Used.Bytes`: flags, index, N 8-byte `Ring` entries (index u32, length
u32), avail event. -/
def usedBytes (q : VirtualQueue) : List Nat :=
  put16 q.usedFlags ++ put16 q.usedIndex ++
    (q.usedRing.map (fun e => put32 e.1 ++ put32 e.2)).flatten ++
    put16 q.usedAvailEvent

/-- `VirtualQueue.Bytes`: serializes descriptor table, Available ring,
alignment padding (the Used ring requires 4-byte alignment) and Used ring;
returns the image with the driver-area and device-area offsets. -/
def Bytes (q : VirtualQueue) : List Nat × Nat × Nat :=
  let a := (q.Descriptors.map Descriptor.Bytes).flatten
  let driver := a.length
  let availEnd := driver + (availBytes q).length
  let pad := if availEnd % 4 = 0 then [] else List.replicate (4 - availEnd % 4) 0
  let device := availEnd + pad.length
  (a ++ (availBytes q ++ (pad ++ usedBytes q)), driver, device)

/-- One iteration of the descriptor loop of `VirtualQueue.Init`: the Go code
computes `off := size * i` (queue.go, not `length * i`) and slices the single
allocation as `buf[off : off+length]`; slicing past the end of the
allocation is a Go runtime panic, embedded as `none`.  `dma.Reserved` holds
on the sub-slice, with physical address `base + off`; the fresh DMA region
reads as zero. -/
def initDescriptor (size length flags base i : Nat) : Option Descriptor :=
  let off := size * i
  if off + length ≤ size * length then
    some (Descriptor.Init default true (base + off)
      (List.replicate length 0) flags)
  else
    none

/-- The descriptor loop of `VirtualQueue.Init`
(`d.Descriptors = append(d.Descriptors, desc)` for `i = 0 .. n-1`). -/
def initDescriptors (size length flags base : Nat) :
    Nat → Option (List Descriptor)
  | 0 => some []
  | Nat.succ i => do
    let t ← initDescriptors size length flags base i
    let d ← initDescriptor size length flags base i
    some (t ++ [d])

/-- `VirtualQueue.Init(size, length, flags)`: one DMA allocation of
`size*length` bytes at base address `base`, `size` descriptors over slices
of it, Available ring pre-filled with `uint16(i)` for `i = 0..size-1`,
`size` zero Used entries; when `flags == Write` the Available index is set
to `uint16(size)` before the image is serialized. -/
def Init (size length flags base : Nat) : Option VirtualQueue := do
  let descs ← initDescriptors size length flags base size
  some { size := size
         Descriptors := descs
         availFlags := 0
         availIndex := if flags = WriteFlag then size % 65536 else 0
         availRing := (List.range size).map (· % 65536)
         availEventIndex := 0
         usedFlags := 0
         usedIndex := 0
         usedRing := List.replicate size (0, 0)
         usedAvailEvent := 0
         usedLast := 0 }

/-- `VirtualQueue.Pop`: returns the queue state after the call and the
copied buffer (`nil`, embedded as `[]`, when the Used index equals the
last-seen counter).  Out-of-range ring or descriptor accesses are Go
runtime panics, embedded as `none`. -/
def Pop (q : VirtualQueue) : Option (VirtualQueue × List Nat) :=
  if q.usedIndex = q.usedLast then some (q, [])
  else
    match q.usedRing[q.usedLast % q.size]? with
    | none => none
    | some e =>
      match q.Descriptors[e.1]? with
      | none => none
      | some d =>
        let buf := d.Read e.2
        let newIndex := (q.availIndex + 1) % 65536
        let slot := newIndex % q.size
        if slot < q.availRing.length then
          some ({ q with availIndex := newIndex
                         availRing := q.availRing.set slot (e.1 % 65536)
                         usedLast := (q.usedLast + 1) % 65536 }, buf)
        else none

/-- The replenishment loop of `VirtualQueue.Push`
(`for i := used; i > 0; i--`): iteration `i` reads Used ring entry `i - 1`
and writes `uint16` of its descriptor index into Available ring slot
`slot`; the Go code recomputes `n := d.Available.index % d.size` each
iteration but neither the index nor the size changes inside the loop, so
the written slot is constant. -/
def recycleLoop (ur : List (Nat × Nat)) (slot : Nat) :
    Nat → List Nat → Option (List Nat)
  | 0, ring => some ring
  | Nat.succ i, ring =>
    match ur[i]? with
    | none => none
    | some e =>
      if slot < ring.length then
        recycleLoop ur slot i (ring.set slot (e.1 % 65536))
      else none

/-- `VirtualQueue.Push(buf)`: claims the descriptor index at Available ring
position `availableIndex mod size`, writes the payload length into that
descriptor's wire-level length field and the payload into its DMA buffer
(`Descriptor.Write` records the same `uint32` length), advances the
Available index by one, runs the replenishment loop for
`used = usedIndex - lastSeen` (uint16 subtraction) entries, and advances
the last-seen counter by `used`. -/
def Push (q : VirtualQueue) (b : List Nat) : Option VirtualQueue :=
  match q.availRing[q.availIndex % q.size]? with
  | none => none
  | some index =>
    let used := (q.usedIndex + 65536 - q.usedLast) % 65536
    match q.Descriptors[index]? with
    | none => none
    | some d =>
      let descs := q.Descriptors.set index (d.Write b)
      let newIndex := (q.availIndex + 1) % 65536
      match recycleLoop q.usedRing (newIndex % q.size) used q.availRing with
      | none => none
      | some ring =>
        some { q with Descriptors := descs
                      availIndex := newIndex
                      availRing := ring
                      usedLast := (q.usedLast + used) % 65536 }

end VirtualQueue

/-- `CapabilityMSIX` of msix.go: the `MessageControl` field (`uint16`), the
`TableOffset` field (`uint32`), and whether the capability is bound to a
device (`device != nil` in Go, the pointer field set by `Unmarshal`). -/
structure CapabilityMSIX where
  MessageControl : Nat
  TableOffset : Nat
  deviceBound : Bool
deriving Repr, DecidableEq

/-- `CapabilityMSIX.TableSize`: `int(MessageControl & 0x7ff) + 1`. -/
def CapabilityMSIX.TableSize (m : CapabilityMSIX) : Nat :=
  (m.MessageControl &&& 2047) + 1

/-- Outcome of `CapabilityMSIX.EnableInterrupt`: the invalid-capability
error (`errors.New("invalid capabilty instance")`, returned before anything
is touched), or the write path — the MSI-X table entry at byte offset
`16*n` from the table base receives (addr, data, control 0) and the MSI-X
enable bit is set in the device configuration. -/
inductive MSIXOutcome where
  | invalidCapability
  | tableWrite (off : Nat) (addr : Nat) (data : Nat)
deriving Repr, DecidableEq

/-- `CapabilityMSIX.EnableInterrupt(n, addr, data)`: the Go guard is
`if n > msix.TableSize() || msix.device == nil`.  Past the guard the
function writes the table entry and the enable bit; the external
`dma.NewRegion`/`Reserve` window over the table is taken to succeed (its
failure is a distinct DMA error, not the invalid-capability condition). -/
def CapabilityMSIX.EnableInterrupt (m : CapabilityMSIX) (n addr data : Nat) :
    MSIXOutcome :=
  if m.TableSize < n ∨ m.deviceBound = false then .invalidCapability
  else .tableWrite (16 * n) addr data

/-- Concrete queue state: capacity 4, two completions pending
(`usedIndex = 3`, `usedLast = 1`), distinct descriptor indices in the Used
ring, Available ring slots all holding 0. -/
def qC2 : VirtualQueue :=
  { size := 4
    Descriptors := [⟨0, 2, 2, 0, [0, 0]⟩, ⟨2, 2, 2, 0, [0, 0]⟩,
                    ⟨4, 2, 2, 0, [0, 0]⟩, ⟨6, 2, 2, 0, [0, 0]⟩]
    availFlags := 0, availIndex := 4, availRing := [0, 0, 0, 0]
    availEventIndex := 0, usedFlags := 0, usedIndex := 3
    usedRing := [(3, 5), (2, 6), (1, 7), (0, 8)]
    usedAvailEvent := 0, usedLast := 1 }

/-- `qC2` after `Push [1]`: descriptor 0 rewritten, index advanced to 5,
both recycling writes landed in the single ring slot 1 (final value 3, the
index of Used entry 0), last-seen counter advanced by 2. -/
def qC2after : VirtualQueue :=
  { qC2 with
    Descriptors := [⟨0, 1, 2, 0, [1, 0]⟩, ⟨2, 2, 2, 0, [0, 0]⟩,
                    ⟨4, 2, 2, 0, [0, 0]⟩, ⟨6, 2, 2, 0, [0, 0]⟩]
    availIndex := 5, availRing := [0, 3, 0, 0], usedLast := 3 }

/-- Concrete queue state: capacity 4, one completion pending
(`usedIndex = 1`, `usedLast = 0`) whose Used entry is descriptor 2 with
reported length 3. -/
def qC3 : VirtualQueue :=
  { size := 4
    Descriptors := [⟨0, 4, 2, 0, [1, 2, 3, 4]⟩, ⟨4, 4, 2, 0, [5, 6, 7, 8]⟩,
                    ⟨8, 4, 2, 0, [7, 8, 9, 10]⟩,
                    ⟨12, 4, 2, 0, [11, 12, 13, 14]⟩]
    availFlags := 0, availIndex := 4, availRing := [0, 1, 2, 3]
    availEventIndex := 0, usedFlags := 0, usedIndex := 1
    usedRing := [(2, 3), (0, 0), (0, 0), (0, 0)]
    usedAvailEvent := 0, usedLast := 0 }

/-- `qC3` after `Pop`: index advanced to 5, descriptor index 2 written into
ring slot `5 mod 4 = 1`, last-seen counter advanced to 1. -/
def qC3after : VirtualQueue :=
  { qC3 with availIndex := 5, availRing := [0, 2, 2, 3], usedLast := 1 }

/-- Concrete queue state at capacity: size 2 with
`availableIndex - usedIndex = 2 - 0 = 2 = N` buffers outstanding (ring
full); both descriptors are still owned by the device. -/
def qFull : VirtualQueue :=
  { size := 2
    Descriptors := [⟨0, 2, 0, 0, [5, 5]⟩, ⟨2, 2, 0, 0, [6, 6]⟩]
    availFlags := 0, availIndex := 2, availRing := [0, 1]
    availEventIndex := 0, usedFlags := 0, usedIndex := 0
    usedRing := [(0, 0), (0, 0)], usedAvailEvent := 0, usedLast := 0 }

/-- `qFull` after `Push [9]`: the live descriptor 0 is silently rewritten
(buffer now `[9, 5]`, length 1) and the index advanced past capacity. -/
def qFullAfter : VirtualQueue :=
  { qFull with
    Descriptors := [⟨0, 1, 0, 0, [9, 5]⟩, ⟨2, 2, 0, 0, [6, 6]⟩]
    availIndex := 3 }

/-- The result of `VirtualQueue.Init 4 64 Write` at base address 0: four
descriptors over the single allocation, Available index 4, ring pre-filled
`[0, 1, 2, 3]`.  (The descriptor addresses 0, 4, 8, 12 exhibit the
`off := size * i` slicing of queue.go; see the C1 theorem.) -/
def qInit464 : VirtualQueue :=
  { size := 4
    Descriptors := [⟨0, 64, 2, 0, List.replicate 64 0⟩,
                    ⟨4, 64, 2, 0, List.replicate 64 0⟩,
                    ⟨8, 64, 2, 0, List.replicate 64 0⟩,
                    ⟨12, 64, 2, 0, List.replicate 64 0⟩]
    availFlags := 0, availIndex := 4, availRing := [0, 1, 2, 3]
    availEventIndex := 0, usedFlags := 0, usedIndex := 0
    usedRing := List.replicate 4 (0, 0), usedAvailEvent := 0, usedLast := 0 }

end Tamago

namespace Tamago

theorem goCopy_length (dst src : List Nat) :
    (goCopy dst src).length = dst.length := by
  simp [goCopy]
  omega

theorem descriptor_bytes_length (d : Descriptor) : d.Bytes.length = 16 := by
  simp [Descriptor.Bytes, put64, put32, put16]

/-- C7: `Descriptor.Bytes` produces exactly 16 bytes — address (u64 LE) at
offset 0, length (u32 LE) at offset 8, flags (u16 LE) at offset 12, next
index (u16 LE) at offset 14 — and for all field values within their machine
widths the reference decoder for this layout recovers the original
descriptor fields: `decode (encode d) = d`. -/
theorem descriptor_encode_decode_roundtrip (d : Descriptor)
    (ha : d.Address < 18446744073709551616) (hl : d.length < 4294967296)
    (hf : d.Flags < 65536) (hn : d.Next < 65536) :
    d.Bytes.length = 16 ∧
    decodeDescriptor d.Bytes = (d.Address, d.length, d.Flags, d.Next) := by
  refine ⟨descriptor_bytes_length d, ?_⟩
  simp [decodeDescriptor, Descriptor.Bytes, put64, put32, put16,
    read64, read32, read16, List.getD]
  refine ⟨by omega, by omega, by omega, by omega⟩

/-- C7 witness: the round trip evaluated on a concrete descriptor. -/
theorem descTable_length (ds : List Descriptor) :
    ((ds.map Descriptor.Bytes).flatten).length = 16 * ds.length := by
  induction ds with
  | nil => simp
  | cons d t ih => simp [descriptor_bytes_length d, ih]; ring

theorem flatten_map_put16_length (l : List Nat) :
    ((l.map put16).flatten).length = 2 * l.length := by
  induction l with
  | nil => simp
  | cons x t ih => simp [put16, ih]; ring

theorem availBytes_length (q : VirtualQueue) :
    (VirtualQueue.availBytes q).length = 2 * q.availRing.length + 6 := by
  simp only [VirtualQueue.availBytes, List.length_append,
    flatten_map_put16_length, put16, List.length_cons, List.length_nil]
  ring

theorem descriptor_encode_decode_roundtrip_witness :
    (Descriptor.mk 81985529216486895 3000000000 257 65534 []).Bytes.length
        = 16 ∧
    decodeDescriptor
        (Descriptor.mk 81985529216486895 3000000000 257 65534 []).Bytes =
      (81985529216486895, 3000000000, 257, 65534) :=
  descriptor_encode_decode_roundtrip
    (Descriptor.mk 81985529216486895 3000000000 257 65534 [])
    (by decide) (by decide) (by decide) (by decide)

/-- C9: for every descriptor count N (and any buffer length, which does not
enter the layout), the device-area offset computed by `VirtualQueue.Bytes`
— the offset `Init` adds to the DMA base to obtain the stored device
address — is a multiple of 4, and equals the Available ring's end offset
`16*N + 2*N + 6` rounded up to the next multiple of 4 by zero padding. -/
theorem device_area_offset_aligned (q : VirtualQueue) (N : Nat)
    (hd : q.Descriptors.length = N) (hr : q.availRing.length = N) :
    q.Bytes.2.2 % 4 = 0 ∧
    q.Bytes.2.2 =
      16 * N + 2 * N + 6 + (4 - (16 * N + 2 * N + 6) % 4) % 4 := by
  have hlen : ((q.Descriptors.map Descriptor.Bytes).flatten).length +
      (VirtualQueue.availBytes q).length = 16 * N + 2 * N + 6 := by
    rw [descTable_length, availBytes_length, hd, hr]; ring
  simp only [VirtualQueue.Bytes]
  by_cases h4 :
      (((q.Descriptors.map Descriptor.Bytes).flatten).length +
        (VirtualQueue.availBytes q).length) % 4 = 0
  · simp only [h4, ite_true, List.length_nil]
    omega
  · simp only [h4, ite_false, List.length_replicate]
    omega

/-- C9 witness: the device-area offset of the concrete capacity-4 queue
`qC3` is 80 = 78 + 2, a multiple of 4. -/
theorem device_area_offset_aligned_witness :
    qC3.Bytes.2.2 % 4 = 0 ∧
    qC3.Bytes.2.2 =
      16 * 4 + 2 * 4 + 6 + (4 - (16 * 4 + 2 * 4 + 6) % 4) % 4 :=
  device_area_offset_aligned qC3 4 (by decide) (by decide)

theorem getD_append_offset (a l : List Nat) (k : Nat) :
    (a ++ l).getD (a.length + k) 0 = l.getD k 0 := by
  rw [List.getD_append_right _ _ _ _ (by omega), Nat.add_sub_cancel_left]

theorem image_avail_index_readback (q : VirtualQueue) :
    read16 q.Bytes.1 (q.Bytes.2.1 + 2) = q.availIndex % 65536 := by
  simp only [VirtualQueue.Bytes, read16, Nat.add_assoc]
  rw [getD_append_offset, getD_append_offset]
  simp [VirtualQueue.availBytes, put16, List.getD]
  omega

theorem initDescriptor_fields (size length flags base i : Nat)
    (d : Descriptor)
    (h : VirtualQueue.initDescriptor size length flags base i = some d) :
    d.length = length % 4294967296 ∧ d.Address = base + size * i := by
  simp only [VirtualQueue.initDescriptor] at h
  split at h
  · obtain rfl := Option.some.inj h
    simp [Descriptor.Init]
  · exact absurd h (by simp)

theorem initDescriptors_spec (size length flags base : Nat) (n : Nat) :
    ∀ ds, VirtualQueue.initDescriptors size length flags base n = some ds →
      ds.length = n ∧ ∀ d ∈ ds, d.length = length % 4294967296 := by
  induction n with
  | zero =>
    intro ds h
    simp only [VirtualQueue.initDescriptors] at h
    obtain rfl := Option.some.inj h
    simp
  | succ i ih =>
    intro ds h
    rw [VirtualQueue.initDescriptors] at h
    cases ht : VirtualQueue.initDescriptors size length flags base i with
    | none => rw [ht] at h; simp at h
    | some t =>
      rw [ht] at h
      cases hd : VirtualQueue.initDescriptor size length flags base i with
      | none => rw [hd] at h; simp at h
      | some d =>
        rw [hd] at h
        simp at h
        obtain rfl := h.symm
        obtain ⟨hlen, hall⟩ := ih t ht
        refine ⟨by simp [hlen], ?_⟩
        intro x hx
        rcases List.mem_append.mp hx with hx | hx
        · exact hall x hx
        · obtain rfl := List.mem_singleton.mp hx
          exact (initDescriptor_fields size length flags base i x hd).1

/-- C8: after `VirtualQueue.Init(N, L, Write)` (receive-style queue), the
Available index reads back as N from the device-visible DMA image, the
Available ring is pre-filled with descriptor indices `0 .. N-1`, and N
descriptors exist, each with recorded buffer length L — all without any
`Push` call. -/
theorem init_write_flag_prefill (size length base : Nat) (q : VirtualQueue)
    (h : VirtualQueue.Init size length WriteFlag base = some q)
    (hs : size < 65536) (hl : length < 4294967296) :
    q.availIndex = size ∧
    q.availRing = List.range size ∧
    q.Descriptors.length = size ∧
    (∀ d ∈ q.Descriptors, d.length = length) ∧
    read16 q.Bytes.1 (q.Bytes.2.1 + 2) = size := by
  rw [VirtualQueue.Init] at h
  cases hds : VirtualQueue.initDescriptors size length WriteFlag base size with
  | none => rw [hds] at h; simp at h
  | some ds =>
    rw [hds] at h
    simp at h
    obtain rfl := h.symm
    obtain ⟨hlen, hall⟩ :=
      initDescriptors_spec size length WriteFlag base size ds hds
    have hidx : (if WriteFlag = WriteFlag then size % 65536 else 0) =
        size % 65536 := if_pos rfl
    refine ⟨?_, ?_, hlen, ?_, ?_⟩
    · simpa [hidx] using Nat.mod_eq_of_lt hs
    · show (List.range size).map (· % 65536) = List.range size
      rw [List.map_congr_left, List.map_id]
      intro i hi
      exact Nat.mod_eq_of_lt (lt_trans (List.mem_range.mp hi) hs)
    · intro d hd
      rw [hall d hd]
      exact Nat.mod_eq_of_lt hl
    · rw [image_avail_index_readback]
      show size % 65536 % 65536 = size
      omega

/-- C8 witness: `Init(4, 64, Write)` at base 0 yields `qInit464`, whose
Available index reads back as 4 and whose four descriptors all record
buffer length 64. -/
theorem init_write_flag_prefill_witness :
    qInit464.availIndex = 4 ∧
    qInit464.availRing = List.range 4 ∧
    qInit464.Descriptors.length = 4 ∧
    (∀ d ∈ qInit464.Descriptors, d.length = 64) ∧
    read16 qInit464.Bytes.1 (qInit464.Bytes.2.1 + 2) = 4 :=
  init_write_flag_prefill 4 64 0 qInit464 (by decide) (by decide) (by decide)

/-- C1: the descriptor loop of `VirtualQueue.Init` computes the slice
offset as `off := size * i`, not `i * length`.  At `Init(4, 64, Write)` the
four descriptors are bound at byte offsets 0, 4, 8, 12 of the 256-byte
allocation — descriptor 1 starts at byte 4, inside descriptor 0's
`[0, 64)` — so the buffers are neither pairwise disjoint nor a cover of the
allocation; and at `Init(4, 2, Write)` the slice `[8 : 10]` of the 8-byte
allocation is out of range (a Go runtime panic, embedded as `none`).  The
claimed offsets `i * length` would be 0, 64, 128, 192. -/
theorem init_descriptor_offsets_overlap :
    ((VirtualQueue.Init 4 64 WriteFlag 0).map
        (fun q => q.Descriptors.map (fun d => (d.Address, d.length)))) =
      some [(0, 64), (4, 64), (8, 64), (12, 64)] ∧
    (4 : Nat) < 0 + 64 ∧
    VirtualQueue.Init 4 2 WriteFlag 0 = none := by decide

/-- C4: `VirtualQueue.Push` on the concrete state `qFull`, whose ring is at
capacity (`availableIndex - usedIndex = 2 = N`), performs no capacity
check and reports nothing — the Go function has no error return and takes
the normal path — silently overwriting live descriptor 0: its buffer
becomes `[9, 5]` and its length 1 while the device still owns it.  The
spec mandates an explicit capacity-exceeded failure here, so this is a
defect of the code. -/
theorem push_full_ring_silent_overwrite :
    VirtualQueue.Push qFull [9] = some qFullAfter := by decide

/-- C5 counterexample: a table of size 4 (MessageControl = 3) has valid
entry positions 0..3, yet `EnableInterrupt` at the out-of-range position
`n = 4` is admitted by the guard `n > TableSize()` and reaches the write
path (table entry at byte offset 64) instead of returning the
invalid-capability error. -/
theorem enable_interrupt_boundary_not_rejected :
    CapabilityMSIX.TableSize ⟨3, 0, true⟩ = 4 ∧
    CapabilityMSIX.EnableInterrupt ⟨3, 0, true⟩ 4 100 7 =
      MSIXOutcome.tableWrite 64 100 7 := by decide

/-- C5 amended: `EnableInterrupt(n, addr, data)` returns the
invalid-capability error, performing no writes, exactly when
`n > TableSize()` or the capability is not bound to a device — the first
out-of-range position `n = TableSize` is not rejected.  The spec's
scenario (table size 4, request at position 5) does yield the
invalid-capability error with no writes. -/
theorem enable_interrupt_guard (m : CapabilityMSIX) (n addr data : Nat) :
    (m.EnableInterrupt n addr data = MSIXOutcome.invalidCapability ↔
      m.TableSize < n ∨ m.deviceBound = false) ∧
    CapabilityMSIX.EnableInterrupt ⟨3, 0, true⟩ 5 addr data =
      MSIXOutcome.invalidCapability := by
  constructor
  · unfold CapabilityMSIX.EnableInterrupt
    split
    · simp_all
    · simp_all
  · have h4 : CapabilityMSIX.TableSize ⟨3, 0, true⟩ = 4 := by decide
    simp [CapabilityMSIX.EnableInterrupt, h4]

/-- C6 counterexample: `Descriptor.Init` on a buffer the DMA allocator
reports unbound returns with the descriptor completely untouched, and the
function — whose Go signature `func (d *Descriptor) Init(buf []byte,
flags uint16)` has no error result — gives the caller no indication of the
failure: the call is observably a no-op, refuting "signals an
unbound-buffer condition to the caller". -/
theorem descriptor_init_unbound_no_signal :
    Descriptor.Init ⟨11, 22, 33, 44, [9]⟩ false 100 [1, 2, 3] 2 =
      ⟨11, 22, 33, 44, [9]⟩ := by decide

/-- C6 amended: on an unbound buffer `Descriptor.Init` returns immediately
and records nothing — address, length, flags and buffer binding are left
unchanged — but silently: no unbound-buffer condition is signalled to the
caller, the function having no error result. -/
theorem descriptor_init_unbound_silent (d : Descriptor) (addr : Nat)
    (buf : List Nat) (flags : Nat) :
    Descriptor.Init d false addr buf flags = d := by
  simp [Descriptor.Init]

theorem getD_set_ne (l : List Nat) (i p : Nat) (hp : p ≠ i) (x : Nat) :
    (l.set i x).getD p 0 = l.getD p 0 := by
  simp [List.getD_eq_getElem?_getD, List.getElem?_set_ne (fun h => hp h.symm)]

theorem recycleLoop_spec (ur : List (Nat × Nat)) (slot : Nat) (n : Nat) :
    ∀ (ring r : List Nat),
      VirtualQueue.recycleLoop ur slot n ring = some r →
      r.length = ring.length ∧
      (∀ p, p ≠ slot → r.getD p 0 = ring.getD p 0) ∧
      (n = 0 → r = ring) ∧
      (0 < n → ∃ e, ur[0]? = some e ∧ r = ring.set slot (e.1 % 65536)) := by
  induction n with
  | zero =>
    intro ring r h
    rw [VirtualQueue.recycleLoop] at h
    obtain rfl := Option.some.inj h
    exact ⟨rfl, fun p _ => rfl, fun _ => rfl, fun h0 => absurd h0 (by simp)⟩
  | succ i ih =>
    intro ring r h
    rw [VirtualQueue.recycleLoop] at h
    split at h
    · exact absurd h (by simp)
    case h_2 e he =>
      split at h
      case isTrue hlt =>
        obtain ⟨h1, h2, h3, h4⟩ := ih (ring.set slot (e.1 % 65536)) r h
        refine ⟨h1.trans (List.length_set ring slot _), ?_, ?_, ?_⟩
        · intro p hp
          exact (h2 p hp).trans (getD_set_ne ring slot p hp _)
        · intro h0
          exact absurd h0 (Nat.succ_ne_zero i)
        · intro _
          cases i with
          | zero =>
            exact ⟨e, he, h3 rfl⟩
          | succ j =>
            obtain ⟨e0, he0, hr⟩ := h4 (Nat.succ_pos j)
            exact ⟨e0, he0, hr.trans (List.set_set _ _ ring slot)⟩
      case isFalse => exact absurd h (by simp)

theorem Push_eq_some (q : VirtualQueue) (b : List Nat) (q' : VirtualQueue)
    (h : VirtualQueue.Push q b = some q') :
    ∃ index d,
      q.availRing[q.availIndex % q.size]? = some index ∧
      q.Descriptors[index]? = some d ∧
      q'.Descriptors = q.Descriptors.set index (d.Write b) ∧
      q'.availIndex = (q.availIndex + 1) % 65536 ∧
      q'.usedLast =
        (q.usedLast + (q.usedIndex + 65536 - q.usedLast) % 65536) % 65536 ∧
      q'.size = q.size ∧ q'.usedIndex = q.usedIndex ∧
      q'.usedRing = q.usedRing ∧
      VirtualQueue.recycleLoop q.usedRing
        ((q.availIndex + 1) % 65536 % q.size)
        ((q.usedIndex + 65536 - q.usedLast) % 65536) q.availRing =
        some q'.availRing := by
  rw [VirtualQueue.Push] at h
  split at h
  · exact absurd h (by simp)
  case h_2 index hidx =>
    split at h
    · exact absurd h (by simp)
    case h_2 d hd =>
      dsimp only [] at h
      split at h
      · exact absurd h (by simp)
      case h_2 ring hr =>
        obtain rfl := (Option.some.inj h).symm
        exact ⟨index, d, hidx, hd, rfl, rfl, rfl, rfl, rfl, rfl, hr⟩

/-- C2 amended: on `Push`, with `k = usedIndex - lastSeenIndex` (uint16
subtraction) completions pending, the last-seen counter is advanced by
exactly k, but the k recycling writes read Used ring positions `k-1` down
to `0` (absolute positions, not the pending window
`lastSeenIndex mod N .. (usedIndex-1) mod N`) and all target the single
Available ring slot `(availableIndex + 1) mod N` — each write overwriting
the previous one, so after the call that slot holds the descriptor index
of Used ring position 0 and every other slot is unchanged. -/
theorem push_recycles_into_single_slot (q : VirtualQueue) (b : List Nat)
    (q' : VirtualQueue) (h : VirtualQueue.Push q b = some q') :
    q'.usedLast =
      (q.usedLast + (q.usedIndex + 65536 - q.usedLast) % 65536) % 65536 ∧
    ((q.usedIndex + 65536 - q.usedLast) % 65536 = 0 →
      q'.availRing = q.availRing) ∧
    (0 < (q.usedIndex + 65536 - q.usedLast) % 65536 →
      ∃ e, q.usedRing[0]? = some e ∧
        q'.availRing =
          q.availRing.set ((q.availIndex + 1) % 65536 % q.size)
            (e.1 % 65536)) := by
  obtain ⟨index, d, hidx, hd, hD, hA, hL, hs, hu, hur, hr⟩ :=
    Push_eq_some q b q' h
  obtain ⟨h1, h2, h3, h4⟩ := recycleLoop_spec q.usedRing
    ((q.availIndex + 1) % 65536 % q.size)
    ((q.usedIndex + 65536 - q.usedLast) % 65536) q.availRing q'.availRing hr
  exact ⟨hL, fun h0 => h3 h0, fun hk => h4 hk⟩

/-- C2 witness: `Push qC2 [1]` with two completions pending
(`usedIndex = 3`, `usedLast = 1`): the counter advances by 2 and the one
written slot holds Used entry 0's descriptor index 3. -/
theorem push_recycles_into_single_slot_witness :
    qC2after.usedLast =
      (qC2.usedLast + (qC2.usedIndex + 65536 - qC2.usedLast) % 65536) %
        65536 ∧
    ((qC2.usedIndex + 65536 - qC2.usedLast) % 65536 = 0 →
      qC2after.availRing = qC2.availRing) ∧
    (0 < (qC2.usedIndex + 65536 - qC2.usedLast) % 65536 →
      ∃ e, qC2.usedRing[0]? = some e ∧
        qC2after.availRing =
          qC2.availRing.set ((qC2.availIndex + 1) % 65536 % qC2.size)
            (e.1 % 65536)) :=
  push_recycles_into_single_slot qC2 [1] qC2after (by decide)

/-- C2 counterexample: in `qC2` the pending Used entries are at ring
positions 1 and 2 (`lastSeenIndex = 1`, `usedIndex = 3`); the entry at
position 2 is descriptor index 1, yet after `Push qC2 [1]` no Available
ring slot holds index 1 (the ring is `[0, 3, 0, 0]`) — the pending entries
are not each re-published into their own distinct Available ring slot. -/
theorem push_recycle_pending_entry_dropped :
    (VirtualQueue.Push qC2 [1]).map (fun q => q.availRing) =
      some [0, 3, 0, 0] ∧
    qC2.usedRing.getD 2 (0, 0) = (1, 7) ∧
    ¬ (1 ∈ [0, 3, 0, 0]) := by decide

/-- C10: every successful `Push` advances the published Available index by
exactly 1 (mod 2^16), however many completions it recycles; the recycling
loop never moves the index and touches no ring slot other than
`newAvailableIndex mod N` — the slot one past the just-published one,
which later `Push`/`Pop` calls publish. -/
theorem push_advances_index_by_one (q : VirtualQueue) (b : List Nat)
    (q' : VirtualQueue) (h : VirtualQueue.Push q b = some q') :
    q'.availIndex = (q.availIndex + 1) % 65536 ∧
    q'.availRing.length = q.availRing.length ∧
    ∀ p, p ≠ (q.availIndex + 1) % 65536 % q.size →
      q'.availRing.getD p 0 = q.availRing.getD p 0 := by
  obtain ⟨index, d, hidx, hd, hD, hA, hL, hs, hu, hur, hr⟩ :=
    Push_eq_some q b q' h
  obtain ⟨h1, h2, h3, h4⟩ := recycleLoop_spec q.usedRing
    ((q.availIndex + 1) % 65536 % q.size)
    ((q.usedIndex + 65536 - q.usedLast) % 65536) q.availRing q'.availRing hr
  exact ⟨hA, h1, h2⟩

/-- C10 witness: `Push qC2 [1]` advances the index from 4 to 5 and changes
no ring slot other than `5 mod 4 = 1`. -/
theorem push_advances_index_by_one_witness :
    qC2after.availIndex = (qC2.availIndex + 1) % 65536 ∧
    qC2after.availRing.length = qC2.availRing.length ∧
    ∀ p, p ≠ (qC2.availIndex + 1) % 65536 % qC2.size →
      qC2after.availRing.getD p 0 = qC2.availRing.getD p 0 :=
  push_advances_index_by_one qC2 [1] qC2after (by decide)

theorem descriptor_read_length (d : Descriptor) (n : Nat) :
    (d.Read n).length = n := by
  simp [Descriptor.Read, goCopy_length]

theorem Pop_eq_some (q q' : VirtualQueue) (buf : List Nat)
    (hne : q.usedIndex ≠ q.usedLast)
    (h : VirtualQueue.Pop q = some (q', buf)) :
    ∃ e d,
      q.usedRing[q.usedLast % q.size]? = some e ∧
      q.Descriptors[e.1]? = some d ∧
      buf = d.Read e.2 ∧
      q'.availIndex = (q.availIndex + 1) % 65536 ∧
      q'.availRing = q.availRing.set ((q.availIndex + 1) % 65536 % q.size)
        (e.1 % 65536) ∧
      q'.usedLast = (q.usedLast + 1) % 65536 ∧
      q'.Descriptors = q.Descriptors ∧ q'.usedIndex = q.usedIndex ∧
      q'.size = q.size := by
  rw [VirtualQueue.Pop, if_neg hne] at h
  split at h
  · exact absurd h (by simp)
  case h_2 e he =>
    split at h
    · exact absurd h (by simp)
    case h_2 d hd =>
      dsimp only [] at h
      split at h
      case isTrue hlt =>
        injection h with hp
        injection hp with h1 h2
        obtain rfl := h1.symm
        obtain rfl := h2.symm
        exact ⟨e, d, he, hd, rfl, rfl, rfl, rfl, rfl, rfl, rfl⟩
      case isFalse => exact absurd h (by simp)

/-- C3 amended: when the Used index differs from the last-seen counter,
`Pop` reads the Used entry at ring position `lastSeenIndex mod N`, returns
a fresh buffer of exactly the entry's reported length copied from the
referenced descriptor's DMA buffer, advances the Available index by
exactly 1 and the last-seen counter by exactly 1 — but it writes the
recycled descriptor index into Available ring slot
`newAvailableIndex mod N`, one slot past the slot the index advance
publishes (which is `(newAvailableIndex - 1) mod N`). -/
theorem pop_copies_and_recycles (q q' : VirtualQueue) (buf : List Nat)
    (hne : q.usedIndex ≠ q.usedLast)
    (h : VirtualQueue.Pop q = some (q', buf)) :
    ∃ e d,
      q.usedRing[q.usedLast % q.size]? = some e ∧
      q.Descriptors[e.1]? = some d ∧
      buf = d.Read e.2 ∧ buf.length = e.2 ∧
      q'.availIndex = (q.availIndex + 1) % 65536 ∧
      q'.availRing = q.availRing.set ((q.availIndex + 1) % 65536 % q.size)
        (e.1 % 65536) ∧
      q'.usedLast = (q.usedLast + 1) % 65536 := by
  obtain ⟨e, d, he, hd, hbuf, hA, hR, hL, _, _, _⟩ :=
    Pop_eq_some q q' buf hne h
  exact ⟨e, d, he, hd, hbuf, by rw [hbuf, descriptor_read_length], hA, hR,
    hL⟩

/-- C3 witness: `Pop qC3` returns the 3 bytes `[7, 8, 9]` of descriptor 2
(the pending Used entry `(2, 3)`), advances the index 4 → 5 and the
last-seen counter 0 → 1, and writes index 2 into ring slot `5 mod 4 = 1`. -/
theorem pop_copies_and_recycles_witness :
    ∃ e d,
      qC3.usedRing[qC3.usedLast % qC3.size]? = some e ∧
      qC3.Descriptors[e.1]? = some d ∧
      ([7, 8, 9] : List Nat) = d.Read e.2 ∧
      ([7, 8, 9] : List Nat).length = e.2 ∧
      qC3after.availIndex = (qC3.availIndex + 1) % 65536 ∧
      qC3after.availRing =
        qC3.availRing.set ((qC3.availIndex + 1) % 65536 % qC3.size)
          (e.1 % 65536) ∧
      qC3after.usedLast = (qC3.usedLast + 1) % 65536 :=
  pop_copies_and_recycles qC3 qC3after [7, 8, 9] (by decide) (by decide)

/-- C3 counterexample: on `qC3` the new Available index is 5, so the slot
the index advance publishes is `(5 - 1) mod 4 = 0`; the claim puts the
recycled descriptor index 2 there, but after `Pop` slot 0 still holds its
old value 0 — the code wrote slot `5 mod 4 = 1` instead (ring
`[0, 2, 2, 3]`). -/
theorem pop_republish_slot_not_published :
    (VirtualQueue.Pop qC3).map (fun p => (p.1.availIndex, p.1.availRing, p.2))
      = some (5, [0, 2, 2, 3], [7, 8, 9]) ∧
    (5 - 1) % 4 = 0 ∧ ([0, 2, 2, 3] : List Nat).getD 0 9 ≠ 2 := by decide

end Tamago
